import Mathlib

/-!
Shallow embedding of `src/client/src/pages/course/student/dashboard.tsx`
(the student dashboard page of rsschool-app), together with theorems that
settle the specification's claims about it.

Modelling conventions:
  * JS numbers that hold ids/scores are modelled as `Int`; `NaN` is modelled
    as `none` of an `Option Int` where a coercion can fail.
  * Optional / possibly-`undefined` fields are `Option _`; an absent value
    (`undefined` or `null`) is `none`.
  * Date strings stay `String` (the code sorts them with `localeCompare`,
    modelled by lexicographic `String` order).  The external date library
    (`moment`) is abstracted by an explicit parse function
    `parse : String → Option Int` mapping a date string to a (day or
    instant) value on an integer time line, `none` for an invalid date;
    theorems quantify over this parse, and concrete witnesses instantiate
    it with `isoDayValue` below.
  * A thrown JS `TypeError` (member access on `undefined`) is modelled with
    `Except JsError`.
-/

namespace StudentDashboard

/-- The `TaskTypes` constant object of the source. -/
def TaskTypes.deadline : String := "deadline"

/-- The `TaskTypes.test` constant. -/
def TaskTypes.test : String := "test"

/-- The `TaskTypes.newtask` constant. -/
def TaskTypes.newtask : String := "newtask"

/-- The `TaskTypes.lecture` constant. -/
def TaskTypes.lecture : String := "lecture"

/-- A course task as the dashboard uses it (`CourseTask` of `services/course`):
id, name, type, the student-visible date window and a description link.
The score fields (`maxScore`, `scoreWeight`) are used only by
`maxCourseScore`, which no claim mentions, and are omitted. -/
structure CourseTask where
  id : Int
  name : String
  type : String
  studentStartDate : Option String
  studentEndDate : Option String
  descriptionUrl : String
deriving Repr, DecidableEq

/-- The nested event descriptor of a `CourseEvent` (`{type, name, descriptionUrl}`). -/
structure EventItem where
  type : String
  name : String
  descriptionUrl : String
deriving Repr, DecidableEq

/-- A course event (`CourseEvent` of `services/course`): fetched events and
events derived from tasks share this shape. -/
structure CourseEvent where
  id : Int
  dateTime : String
  event : EventItem
deriving Repr, DecidableEq

/-- Translation of `createCourseEventFromTask(task, type)`: the JS
`(… ) || ''` turns an absent date into the empty string, modelled by
`Option.getD _ ""` (an explicitly stored empty string also stays `""`). -/
def createCourseEventFromTask (task : CourseTask) (type : String) : CourseEvent :=
  { id := task.id
    dateTime := (if type = TaskTypes.deadline then task.studentEndDate else task.studentStartDate).getD ""
    event := { type := type, name := task.name, descriptionUrl := task.descriptionUrl } }

/-- The two pushes the body of the `tasksToEvents` reduce performs for one
task: the first push is skipped exactly when the task's type is `"test"`. -/
def taskEvents (task : CourseTask) : List CourseEvent :=
  (if task.type ≠ TaskTypes.test then [createCourseEventFromTask task task.type] else []) ++
    [createCourseEventFromTask task (if task.type = TaskTypes.test then TaskTypes.test else TaskTypes.deadline)]

/-- Translation of `tasksToEvents(tasks)`: a `reduce` over the task list that
pushes one or two events per task onto the accumulator. -/
def tasksToEvents (tasks : List CourseTask) : List CourseEvent :=
  tasks.foldl
    (fun acc task =>
      (if task.type ≠ TaskTypes.test then acc ++ [createCourseEventFromTask task task.type] else acc) ++
        [createCourseEventFromTask task (if task.type = TaskTypes.test then TaskTypes.test else TaskTypes.deadline)])
    []

theorem foldl_taskEvents (tasks : List CourseTask) (acc : List CourseEvent) :
    tasks.foldl
      (fun acc task =>
        (if task.type ≠ TaskTypes.test then acc ++ [createCourseEventFromTask task task.type] else acc) ++
          [createCourseEventFromTask task (if task.type = TaskTypes.test then TaskTypes.test else TaskTypes.deadline)])
      acc = acc ++ tasks.flatMap taskEvents := by
  induction tasks generalizing acc with
  | nil => simp
  | cons t ts ih =>
    simp only [List.foldl_cons, List.flatMap_cons, ih, taskEvents]
    by_cases h : t.type = TaskTypes.test <;> simp [h, List.append_assoc]

theorem tasksToEvents_eq_flatMap (tasks : List CourseTask) :
    tasksToEvents tasks = tasks.flatMap taskEvents := by
  rw [tasksToEvents, foldl_taskEvents tasks []]
  rfl

/-- Sample day-value parse used to instantiate witnesses and counterexamples:
a dash-separated digit string such as an ISO `YYYY-MM-DD` date is read as the
integer of its digits (so lexicographic order of equal-length ISO dates
agrees with the numeric order), anything else, the empty string included,
is an invalid date (`none`). -/
def isoDayValue (s : String) : Option Int :=
  let ds := s.toList.filter (fun c => c ≠ '-')
  if ds ≠ [] ∧ ds.all Char.isDigit then
    some (ds.foldl (fun n c => 10 * n + ((c.toNat : Int) - 48)) 0)
  else none

/-- The concrete task of the specification's first Event Deriver scenario. -/
def c2Task : CourseTask :=
  { id := 1, name := "task1", type := "deadline",
    studentStartDate := some "2024-01-01", studentEndDate := some "2024-01-10",
    descriptionUrl := "url1" }

/-- The concrete task of the specification's second Event Deriver scenario. -/
def c3Task : CourseTask :=
  { id := 2, name := "task2", type := "test",
    studentStartDate := some "2024-02-01", studentEndDate := some "2024-02-05",
    descriptionUrl := "url2" }

/-- C2, counterexample: for the scenario task the deriver emits two events
both dated at the student end date `2024-01-10` (because
`createCourseEventFromTask` picks the end date whenever the event type is
`"deadline"`, and both emitted events of a deadline-type task have event
type `"deadline"`), not the `[start, end]` pair the claim states. -/
theorem deadline_scenario_events_both_use_end_date :
    (tasksToEvents [c2Task]).map (fun e => (e.event.type, e.dateTime)) =
      [("deadline", "2024-01-10"), ("deadline", "2024-01-10")] ∧
    (tasksToEvents [c2Task]).map (fun e => (e.event.type, e.dateTime)) ≠
      [("deadline", "2024-01-01"), ("deadline", "2024-01-10")] := by
  decide

/-- C2, amended: for every task whose type is not `"test"`, the first emitted
event has the task's own type, and its dateTime is the student end date when
that type is `"deadline"` and the student start date otherwise (empty string
when the date is absent). -/
theorem eventDeriver_first_event (task : CourseTask) (h : task.type ≠ TaskTypes.test) :
    ∃ e rest, tasksToEvents [task] = e :: rest ∧
      e.event.type = task.type ∧
      e.dateTime = (if task.type = TaskTypes.deadline then task.studentEndDate
          else task.studentStartDate).getD "" := by
  refine ⟨createCourseEventFromTask task task.type,
    [createCourseEventFromTask task TaskTypes.deadline], ?_, rfl, rfl⟩
  rw [tasksToEvents_eq_flatMap]
  simp [taskEvents, h]

/-- Witness for the amended C2 at the scenario task itself. -/
theorem eventDeriver_first_event_witness :
    c2Task.type ≠ TaskTypes.test ∧
    (∃ e rest, tasksToEvents [c2Task] = e :: rest ∧
      e.event.type = c2Task.type ∧
      e.dateTime = (if c2Task.type = TaskTypes.deadline then c2Task.studentEndDate
          else c2Task.studentStartDate).getD "") :=
  ⟨by decide, eventDeriver_first_event c2Task (by decide)⟩

/-- C3, counterexample: the single event derived from the scenario test task
is dated at the student start date `2024-02-01` (the end date is only used
for event type `"deadline"`), not at the end date `2024-02-05` as claimed. -/
theorem test_scenario_event_uses_start_date :
    (tasksToEvents [c3Task]).map (fun e => (e.event.type, e.dateTime)) =
      [("test", "2024-02-01")] ∧
    (tasksToEvents [c3Task]).map (fun e => (e.event.type, e.dateTime)) ≠
      [("test", "2024-02-05")] := by
  decide

/-- C3, amended: for the scenario test task the Event Deriver emits exactly
one event, of type `"test"` with dateTime equal to the student start date. -/
theorem test_scenario_single_event :
    (tasksToEvents [c3Task]).map (fun e => (e.event.type, e.dateTime)) =
      [("test", "2024-02-01")] := by
  decide

/-- C4: the Event Deriver's output is the task-ordered concatenation of each
task's own contiguous event block, and that block has exactly one event for a
`"test"` task and exactly two events for a task of any other type. -/
theorem eventDeriver_counts_and_order (tasks : List CourseTask) :
    tasksToEvents tasks = tasks.flatMap taskEvents ∧
    ∀ task : CourseTask,
      (taskEvents task).length = if task.type = TaskTypes.test then 1 else 2 := by
  refine ⟨tasksToEvents_eq_flatMap tasks, fun task => ?_⟩
  by_cases h : task.type = TaskTypes.test <;> simp [taskEvents, h]

/-- C10: every derived event carries the id, name and description link of the
task it came from, and for a non-test task the two derived events share one
id and one name, so a merged event list can repeat ids. -/
theorem derived_events_carry_task_identity (tasks : List CourseTask) :
    (∀ e ∈ tasksToEvents tasks, ∃ task ∈ tasks,
        e.id = task.id ∧ e.event.name = task.name ∧
        e.event.descriptionUrl = task.descriptionUrl) ∧
    (∀ task : CourseTask, task.type ≠ TaskTypes.test →
        ∃ e₁ e₂, tasksToEvents [task] = [e₁, e₂] ∧
          e₁.id = e₂.id ∧ e₁.event.name = e₂.event.name ∧ e₁.id = task.id) := by
  constructor
  · intro e he
    rw [tasksToEvents_eq_flatMap, List.mem_flatMap] at he
    obtain ⟨task, htask, he⟩ := he
    refine ⟨task, htask, ?_⟩
    have : ∀ ty, e = createCourseEventFromTask task ty →
        e.id = task.id ∧ e.event.name = task.name ∧
        e.event.descriptionUrl = task.descriptionUrl := by
      rintro ty rfl; exact ⟨rfl, rfl, rfl⟩
    rcases List.mem_append.mp he with h | h
    · by_cases hty : task.type = TaskTypes.test
      · simp [hty] at h
      · simp only [hty, if_pos, ne_eq, not_false_iff, if_true, List.mem_singleton] at h
        exact this _ h
    · rcases List.mem_singleton.mp h with rfl
      exact this _ rfl
  · intro task h
    refine ⟨createCourseEventFromTask task task.type,
      createCourseEventFromTask task TaskTypes.deadline, ?_, rfl, rfl, rfl⟩
    rw [tasksToEvents_eq_flatMap]
    simp [taskEvents, h]

/-- Model of `moment(s).isAfter(t)` for an instant `t`: an invalid date
(`parse s = none`, as for the empty string) compares false. -/
def isAfterB (parse : String → Option Int) (s : String) (t : Int) : Bool :=
  match parse s with
  | none => false
  | some v => t < v

/-- Translation of the `nextEvents` computation inside the fetch callback:
fetched events concatenated with the derived task events, sorted by
`dateTime.localeCompare` (modelled by lexicographic `String` order; the JS
sort is modelled by `mergeSort`, which returns a sorted permutation), then
filtered to events strictly after the start of the current day.  The
source's trailing `?? []` can never fire and adds nothing. -/
def nextEvents (parse : String → Option Int) (startOfToday : Int)
    (courseEvents : List CourseEvent) (courseTasks : List CourseTask) : List CourseEvent :=
  ((courseEvents ++ tasksToEvents courseTasks).mergeSort
      (fun a b => a.dateTime ≤ b.dateTime)).filter
    (fun e => isAfterB parse e.dateTime startOfToday)

/-- C5: for every fetched and derived event list and every current day, the
merged output is non-decreasing by dateTime under lexicographic string
comparison, every member's dateTime parses to an instant strictly after the
start of the current day (so none is at or before it), and, since the empty
string is not a valid date, no member's dateTime is the empty string. -/
theorem nextEvents_sorted_future_nonempty (parse : String → Option Int)
    (startOfToday : Int) (courseEvents : List CourseEvent)
    (courseTasks : List CourseTask) (hempty : parse "" = none) :
    (nextEvents parse startOfToday courseEvents courseTasks).Pairwise
        (fun a b => a.dateTime ≤ b.dateTime) ∧
    (∀ e ∈ nextEvents parse startOfToday courseEvents courseTasks,
        ∃ v, parse e.dateTime = some v ∧ startOfToday < v) ∧
    (∀ e ∈ nextEvents parse startOfToday courseEvents courseTasks,
        e.dateTime ≠ "") := by
  have hmem : ∀ e ∈ nextEvents parse startOfToday courseEvents courseTasks,
      ∃ v, parse e.dateTime = some v ∧ startOfToday < v := by
    intro e he
    have hp := (List.mem_filter.mp he).2
    unfold isAfterB at hp
    cases hv : parse e.dateTime with
    | none => rw [hv] at hp; cases hp
    | some v =>
      rw [hv] at hp
      exact ⟨v, rfl, by simpa using hp⟩
  refine ⟨?_, hmem, ?_⟩
  · have hsorted := @List.sorted_mergeSort CourseEvent
      (fun a b : CourseEvent => a.dateTime ≤ b.dateTime)
      (fun a b c hab hbc => by
        simp only [decide_eq_true_eq] at *
        exact le_trans hab hbc)
      (fun a b => by
        simpa [Bool.or_eq_true, decide_eq_true_eq] using
          le_total a.dateTime b.dateTime)
      (courseEvents ++ tasksToEvents courseTasks)
    exact (hsorted.filter _).imp (fun h => by simpa using h)
  · intro e he hblank
    obtain ⟨v, hv, _⟩ := hmem e he
    rw [hblank, hempty] at hv
    cases hv

/-- Witness for C5 at the sample parse and a concrete day/task pair. -/
theorem nextEvents_sorted_future_nonempty_witness :
    isoDayValue "" = none ∧
    ((nextEvents isoDayValue 20240101 [] [c2Task]).Pairwise
        (fun a b => a.dateTime ≤ b.dateTime) ∧
    (∀ e ∈ nextEvents isoDayValue 20240101 [] [c2Task],
        ∃ v, isoDayValue e.dateTime = some v ∧ 20240101 < v) ∧
    (∀ e ∈ nextEvents isoDayValue 20240101 [] [c2Task], e.dateTime ≠ "")) :=
  ⟨by decide, nextEvents_sorted_future_nonempty isoDayValue 20240101 [] [c2Task] (by decide)⟩

/-- One entry of `studentSummary.results` (typed `any[]` in the source): the
classifier only reads `courseTaskId`. -/
structure TaskResult where
  courseTaskId : Int
  score : Int
deriving Repr, DecidableEq

/-- One entry of the per-course task detail list (`StudentTasksDetail` of
`common/models`): the classifier reads `name`, `comment`,
`taskGithubPrUris` and `score`. -/
structure StudentTasksDetail where
  name : String
  comment : Option String
  taskGithubPrUris : Option String
  score : Option Int
deriving Repr, DecidableEq

/-- A task as a classifier bucket holds it: the spread `{...task, comment,
githubPrUri, score}` is modelled by nesting the source task; JS `null` and
`undefined` both become `none`. -/
structure DashboardTask where
  task : CourseTask
  comment : Option String
  githubPrUri : Option String
  score : Option Int
deriving Repr, DecidableEq

/-- Translation of `checkTaskResults(results, taskId)`:
`results.find(task => task.courseTaskId === taskId)`. -/
def checkTaskResults (results : List TaskResult) (taskId : Int) : Option TaskResult :=
  results.find? (fun task => task.courseTaskId == taskId)

/-- Day value of `moment(task.studentEndDate as string)` at day granularity:
`moment(undefined)` is the current instant, so an absent date is the current
day; an unparseable string is an invalid date (`none`). -/
def momentDayValue (dayParse : String → Option Int) (today : Int) :
    Option String → Option Int
  | none => some today
  | some s => dayParse s

/-- Model of `moment(d).isBefore(currentDate, 'date')`: day-granularity
strict comparison, false on an invalid date. -/
def isBeforeDay (dayParse : String → Option Int) (today : Int)
    (d : Option String) : Bool :=
  match momentDayValue dayParse today d with
  | none => false
  | some v => v < today

/-- Model of `moment(d).isAfter(currentDate, 'date')`: day-granularity strict
comparison, false on an invalid date. -/
def isAfterDay (dayParse : String → Option Int) (today : Int)
    (d : Option String) : Bool :=
  match momentDayValue dayParse today d with
  | none => false
  | some v => today < v

/-- The enrichment the `tasksCompleted` map performs: fields from the first
same-named detail entry, `undefined` fields when there is none (`?? {}`). -/
def enrichCompleted (tasksDetail : List StudentTasksDetail)
    (task : CourseTask) : DashboardTask :=
  match tasksDetail.find? (fun taskDetail => taskDetail.name == task.name) with
  | some d => { task := task, comment := d.comment,
                githubPrUri := d.taskGithubPrUris, score := d.score }
  | none => { task := task, comment := none, githubPrUri := none, score := none }

/-- Translation of `tasksCompleted`: tasks with a matching result (the JS
`!!` is `Option.isSome`), enriched from the detail list. -/
def tasksCompleted (results : List TaskResult)
    (tasksDetail : List StudentTasksDetail)
    (courseTasks : List CourseTask) : List DashboardTask :=
  (courseTasks.filter (fun task => (checkTaskResults results task.id).isSome)).map
    (enrichCompleted tasksDetail)

/-- Translation of `tasksNotDone`: tasks whose student end day is strictly
before the current day and which have no matching result; score `0`. -/
def tasksNotDone (dayParse : String → Option Int) (today : Int)
    (results : List TaskResult) (courseTasks : List CourseTask) : List DashboardTask :=
  (courseTasks.filter (fun task =>
      isBeforeDay dayParse today task.studentEndDate &&
        !(checkTaskResults results task.id).isSome)).map
    (fun task => { task := task, comment := none, githubPrUri := none, score := some 0 })

/-- Translation of `tasksFuture`: tasks whose student end day is strictly
after the current day and which have no matching result; score `null`. -/
def tasksFuture (dayParse : String → Option Int) (today : Int)
    (results : List TaskResult) (courseTasks : List CourseTask) : List DashboardTask :=
  (courseTasks.filter (fun task =>
      isAfterDay dayParse today task.studentEndDate &&
        !(checkTaskResults results task.id).isSome)).map
    (fun task => { task := task, comment := none, githubPrUri := none, score := none })

/-- The `taskStatistics` record handed to the tasks statistics card. -/
structure TaskStatistics where
  completed : List DashboardTask
  notDone : List DashboardTask
  future : List DashboardTask
deriving Repr, DecidableEq

/-- Translation of the `taskStatistics` object literal. -/
def taskStatistics (dayParse : String → Option Int) (today : Int)
    (results : List TaskResult) (tasksDetail : List StudentTasksDetail)
    (courseTasks : List CourseTask) : TaskStatistics :=
  { completed := tasksCompleted results tasksDetail courseTasks
    notDone := tasksNotDone dayParse today results courseTasks
    future := tasksFuture dayParse today results courseTasks }

theorem mem_map_task_of_filter {p : CourseTask → Bool}
    {enrich : CourseTask → DashboardTask} {courseTasks : List CourseTask}
    (hkeep : ∀ t, (enrich t).task = t) (task : CourseTask) :
    task ∈ ((courseTasks.filter p).map enrich).map DashboardTask.task ↔
      task ∈ courseTasks ∧ p task := by
  rw [List.map_map]
  have : (DashboardTask.task ∘ enrich) = id := funext fun t => hkeep t
  rw [this, List.map_id, List.mem_filter]

theorem hasResult_iff (results : List TaskResult) (taskId : Int) :
    (checkTaskResults results taskId).isSome ↔
      ∃ r ∈ results, r.courseTaskId = taskId := by
  unfold checkTaskResults
  rw [List.find?_isSome]
  constructor
  · rintro ⟨r, hr, hp⟩
    exact ⟨r, hr, by simpa using hp⟩
  · rintro ⟨r, hr, hp⟩
    exact ⟨r, hr, by simpa using hp⟩

theorem enrichCompleted_task (tasksDetail : List StudentTasksDetail)
    (t : CourseTask) : (enrichCompleted tasksDetail t).task = t := by
  unfold enrichCompleted
  cases tasksDetail.find? (fun taskDetail => taskDetail.name == t.name) <;> rfl

theorem isBeforeDay_eq_true_iff (dayParse : String → Option Int) (today : Int)
    (d : Option String) :
    isBeforeDay dayParse today d = true ↔
      ∃ v, momentDayValue dayParse today d = some v ∧ v < today := by
  unfold isBeforeDay
  cases hm : momentDayValue dayParse today d <;> simp [hm]

theorem isAfterDay_eq_true_iff (dayParse : String → Option Int) (today : Int)
    (d : Option String) :
    isAfterDay dayParse today d = true ↔
      ∃ v, momentDayValue dayParse today d = some v ∧ today < v := by
  unfold isAfterDay
  cases hm : momentDayValue dayParse today d <;> simp [hm]

/-- Concrete task whose student end date is the current day, for the C1
counterexample. -/
def c1Task : CourseTask :=
  { id := 3, name := "task3", type := "newtask",
    studentStartDate := some "2024-03-01", studentEndDate := some "2024-03-05",
    descriptionUrl := "url3" }

/-- C1, counterexample: with an empty result list (no matching result) and
the current day equal to the task's student end day, the task lands in
neither `notDone` (strict `isBefore`) nor `future` (strict `isAfter`), so a
result-less task does not always appear in exactly one of the two buckets. -/
theorem sameDay_task_in_no_bucket :
    checkTaskResults [] c1Task.id = none ∧
    tasksCompleted [] [] [c1Task] = [] ∧
    tasksNotDone isoDayValue 20240305 [] [c1Task] = [] ∧
    tasksFuture isoDayValue 20240305 [] [c1Task] = [] := by
  decide

/-- C1, amended: every task with a matching result appears in `completed`
and in neither other bucket; every task without a matching result is not in
`completed`, is in `notDone` exactly when its end day is strictly before the
current day, is in `future` exactly when its end day is strictly after the
current day, and is never in both — so it appears in at most one of the two,
and in neither when its end day equals the current day or cannot be parsed. -/
theorem taskClassifier_partition (dayParse : String → Option Int) (today : Int)
    (results : List TaskResult) (tasksDetail : List StudentTasksDetail)
    (courseTasks : List CourseTask) (task : CourseTask)
    (htask : task ∈ courseTasks) :
    ((∃ r ∈ results, r.courseTaskId = task.id) →
        task ∈ (taskStatistics dayParse today results tasksDetail courseTasks).completed.map
          DashboardTask.task ∧
        task ∉ (taskStatistics dayParse today results tasksDetail courseTasks).notDone.map
          DashboardTask.task ∧
        task ∉ (taskStatistics dayParse today results tasksDetail courseTasks).future.map
          DashboardTask.task) ∧
    ((∀ r ∈ results, r.courseTaskId ≠ task.id) →
        task ∉ (taskStatistics dayParse today results tasksDetail courseTasks).completed.map
          DashboardTask.task ∧
        (task ∈ (taskStatistics dayParse today results tasksDetail courseTasks).notDone.map
            DashboardTask.task ↔
          ∃ v, momentDayValue dayParse today task.studentEndDate = some v ∧ v < today) ∧
        (task ∈ (taskStatistics dayParse today results tasksDetail courseTasks).future.map
            DashboardTask.task ↔
          ∃ v, momentDayValue dayParse today task.studentEndDate = some v ∧ today < v) ∧
        ¬(task ∈ (taskStatistics dayParse today results tasksDetail courseTasks).notDone.map
            DashboardTask.task ∧
          task ∈ (taskStatistics dayParse today results tasksDetail courseTasks).future.map
            DashboardTask.task)) := by
  have hcomp : task ∈ (taskStatistics dayParse today results tasksDetail courseTasks).completed.map
      DashboardTask.task ↔
      task ∈ courseTasks ∧ (checkTaskResults results task.id).isSome := by
    exact mem_map_task_of_filter (enrichCompleted_task tasksDetail) task
  have hnd : task ∈ (taskStatistics dayParse today results tasksDetail courseTasks).notDone.map
      DashboardTask.task ↔
      task ∈ courseTasks ∧
        (isBeforeDay dayParse today task.studentEndDate &&
          !(checkTaskResults results task.id).isSome) = true := by
    exact mem_map_task_of_filter (fun t => rfl) task
  have hfut : task ∈ (taskStatistics dayParse today results tasksDetail courseTasks).future.map
      DashboardTask.task ↔
      task ∈ courseTasks ∧
        (isAfterDay dayParse today task.studentEndDate &&
          !(checkTaskResults results task.id).isSome) = true := by
    exact mem_map_task_of_filter (fun t => rfl) task
  constructor
  · intro hres
    have hsome : (checkTaskResults results task.id).isSome :=
      (hasResult_iff results task.id).mpr hres
    refine ⟨hcomp.mpr ⟨htask, hsome⟩, ?_, ?_⟩
    · intro hmem
      have := (hnd.mp hmem).2
      rw [Bool.and_eq_true, Bool.not_eq_true', Bool.eq_false_iff] at this
      exact this.2 hsome
    · intro hmem
      have := (hfut.mp hmem).2
      rw [Bool.and_eq_true, Bool.not_eq_true', Bool.eq_false_iff] at this
      exact this.2 hsome
  · intro hnores
    have hnone : (checkTaskResults results task.id).isSome = false := by
      rw [Bool.eq_false_iff]
      intro hsome
      obtain ⟨r, hr, hid⟩ := (hasResult_iff results task.id).mp hsome
      exact hnores r hr hid
    have hndiff : task ∈ (taskStatistics dayParse today results tasksDetail courseTasks).notDone.map
        DashboardTask.task ↔
        ∃ v, momentDayValue dayParse today task.studentEndDate = some v ∧ v < today := by
      rw [hnd, ← isBeforeDay_eq_true_iff]
      simp [htask, hnone]
    have hfutiff : task ∈ (taskStatistics dayParse today results tasksDetail courseTasks).future.map
        DashboardTask.task ↔
        ∃ v, momentDayValue dayParse today task.studentEndDate = some v ∧ today < v := by
      rw [hfut, ← isAfterDay_eq_true_iff]
      simp [htask, hnone]
    refine ⟨?_, hndiff, hfutiff, ?_⟩
    · intro hmem
      rw [hcomp] at hmem
      rw [hmem.2] at hnone
      cases hnone
    · rintro ⟨h₁, h₂⟩
      obtain ⟨v, hv, hlt⟩ := hndiff.mp h₁
      obtain ⟨w, hw, hgt⟩ := hfutiff.mp h₂
      rw [hv] at hw
      cases hw
      exact absurd hgt (not_lt.mpr (le_of_lt hlt))

/-- Witness for the amended C1: a task with a matching result goes only to
`completed`, and the same task without a result, due the day before the
current day, goes exactly to `notDone`. -/
theorem taskClassifier_partition_witness :
    c1Task ∈ [c1Task] ∧
    ((∃ r ∈ [({courseTaskId := 3, score := 80} : TaskResult)], r.courseTaskId = c1Task.id) →
        c1Task ∈ (taskStatistics isoDayValue 20240306 [{courseTaskId := 3, score := 80}] [] [c1Task]).completed.map
          DashboardTask.task ∧
        c1Task ∉ (taskStatistics isoDayValue 20240306 [{courseTaskId := 3, score := 80}] [] [c1Task]).notDone.map
          DashboardTask.task ∧
        c1Task ∉ (taskStatistics isoDayValue 20240306 [{courseTaskId := 3, score := 80}] [] [c1Task]).future.map
          DashboardTask.task) ∧
    ((∀ r ∈ [({courseTaskId := 3, score := 80} : TaskResult)], r.courseTaskId ≠ c1Task.id) →
        c1Task ∉ (taskStatistics isoDayValue 20240306 [{courseTaskId := 3, score := 80}] [] [c1Task]).completed.map
          DashboardTask.task ∧
        (c1Task ∈ (taskStatistics isoDayValue 20240306 [{courseTaskId := 3, score := 80}] [] [c1Task]).notDone.map
            DashboardTask.task ↔
          ∃ v, momentDayValue isoDayValue 20240306 c1Task.studentEndDate = some v ∧ v < 20240306) ∧
        (c1Task ∈ (taskStatistics isoDayValue 20240306 [{courseTaskId := 3, score := 80}] [] [c1Task]).future.map
            DashboardTask.task ↔
          ∃ v, momentDayValue isoDayValue 20240306 c1Task.studentEndDate = some v ∧ 20240306 < v) ∧
        ¬(c1Task ∈ (taskStatistics isoDayValue 20240306 [{courseTaskId := 3, score := 80}] [] [c1Task]).notDone.map
            DashboardTask.task ∧
          c1Task ∈ (taskStatistics isoDayValue 20240306 [{courseTaskId := 3, score := 80}] [] [c1Task]).future.map
            DashboardTask.task)) :=
  ⟨by decide,
    (taskClassifier_partition isoDayValue 20240306 [{courseTaskId := 3, score := 80}]
        [] [c1Task] c1Task (by decide)).1,
    (taskClassifier_partition isoDayValue 20240306 [{courseTaskId := 3, score := 80}]
        [] [c1Task] c1Task (by decide)).2⟩

/-- C6: the completed bucket holds exactly the tasks with a matching result,
in task-list order, and each entry's comment, PR link and score come from the
first same-named detail entry when one exists and are absent otherwise. -/
theorem tasksCompleted_exactly_and_enriched (results : List TaskResult)
    (tasksDetail : List StudentTasksDetail) (courseTasks : List CourseTask) :
    ((tasksCompleted results tasksDetail courseTasks).map DashboardTask.task =
        courseTasks.filter (fun t => (checkTaskResults results t.id).isSome)) ∧
    (∀ t : CourseTask,
        t ∈ (tasksCompleted results tasksDetail courseTasks).map DashboardTask.task ↔
          t ∈ courseTasks ∧ ∃ r ∈ results, r.courseTaskId = t.id) ∧
    (∀ u ∈ tasksCompleted results tasksDetail courseTasks,
        (∀ d, tasksDetail.find? (fun td => td.name == u.task.name) = some d →
            u.comment = d.comment ∧ u.githubPrUri = d.taskGithubPrUris ∧
            u.score = d.score) ∧
        (tasksDetail.find? (fun td => td.name == u.task.name) = none →
            u.comment = none ∧ u.githubPrUri = none ∧ u.score = none)) := by
  refine ⟨?_, ?_, ?_⟩
  · unfold tasksCompleted
    rw [List.map_map]
    have : (DashboardTask.task ∘ enrichCompleted tasksDetail) = id :=
      funext fun t => enrichCompleted_task tasksDetail t
    rw [this, List.map_id]
  · intro t
    unfold tasksCompleted
    rw [mem_map_task_of_filter (enrichCompleted_task tasksDetail) t,
      hasResult_iff]
  · intro u hu
    obtain ⟨t, _, hut⟩ := List.mem_map.mp hu
    have hname : u.task = t := by rw [← hut]; exact enrichCompleted_task tasksDetail t
    rw [hname]
    cases hd : tasksDetail.find? (fun td => td.name == t.name) with
    | some d₀ =>
      have hfields : u.comment = d₀.comment ∧ u.githubPrUri = d₀.taskGithubPrUris ∧
          u.score = d₀.score := by
        rw [← hut]
        unfold enrichCompleted
        rw [hd]
        exact ⟨rfl, rfl, rfl⟩
      refine ⟨?_, ?_⟩
      · intro d hfind
        cases hfind
        exact hfields
      · intro hfind
        cases hfind
    | none =>
      have hfields : u.comment = none ∧ u.githubPrUri = none ∧ u.score = none := by
        rw [← hut]
        unfold enrichCompleted
        rw [hd]
        exact ⟨rfl, rfl, rfl⟩
      refine ⟨?_, fun _ => hfields⟩
      intro d hfind
      cases hfind

/-- A thrown JS runtime error: accessing a member of `undefined` throws a
`TypeError`. -/
inductive JsError where
  | typeError
deriving Repr, DecidableEq

/-- JS-faithful `checkTaskResults`: the initial summary state is the empty
object `{} as StudentSummary`, whose `results` field is `undefined`, and
`results.find(…)` on `undefined` throws. -/
def checkTaskResultsJS (results : Option (List TaskResult)) (taskId : Int) :
    Except JsError (Option TaskResult) :=
  match results with
  | none => .error .typeError
  | some rs => .ok (checkTaskResults rs taskId)

/-- JS `Array.prototype.filter` with a predicate that can throw: elements are
tested left to right and the first thrown error aborts the whole filter. -/
def filterE {α : Type} (p : α → Except JsError Bool) : List α → Except JsError (List α)
  | [] => .ok []
  | x :: xs =>
    match p x with
    | .error e => .error e
    | .ok b =>
      match filterE p xs with
      | .error e => .error e
      | .ok rest => .ok (if b then x :: rest else rest)

/-- JS-faithful `tasksCompleted` over a possibly absent result list. -/
def tasksCompletedJS (results : Option (List TaskResult))
    (tasksDetail : List StudentTasksDetail) (courseTasks : List CourseTask) :
    Except JsError (List DashboardTask) :=
  match filterE (fun task =>
      match checkTaskResultsJS results task.id with
      | .error e => .error e
      | .ok r => .ok r.isSome) courseTasks with
  | .error e => .error e
  | .ok picked => .ok (picked.map (enrichCompleted tasksDetail))

/-- JS-faithful `tasksNotDone`: the `&&` in its filter evaluates the date
comparison first and only consults `results` when that comparison is true. -/
def tasksNotDoneJS (dayParse : String → Option Int) (today : Int)
    (results : Option (List TaskResult)) (courseTasks : List CourseTask) :
    Except JsError (List DashboardTask) :=
  match filterE (fun task =>
      if isBeforeDay dayParse today task.studentEndDate then
        match checkTaskResultsJS results task.id with
        | .error e => .error e
        | .ok r => .ok !r.isSome
      else .ok false) courseTasks with
  | .error e => .error e
  | .ok picked =>
    .ok (picked.map (fun task =>
      { task := task, comment := none, githubPrUri := none, score := some 0 }))

/-- JS-faithful `tasksFuture`, with the same short-circuit shape. -/
def tasksFutureJS (dayParse : String → Option Int) (today : Int)
    (results : Option (List TaskResult)) (courseTasks : List CourseTask) :
    Except JsError (List DashboardTask) :=
  match filterE (fun task =>
      if isAfterDay dayParse today task.studentEndDate then
        match checkTaskResultsJS results task.id with
        | .error e => .error e
        | .ok r => .ok !r.isSome
      else .ok false) courseTasks with
  | .error e => .error e
  | .ok picked =>
    .ok (picked.map (fun task =>
      { task := task, comment := none, githubPrUri := none, score := none }))

theorem filterE_ok {α : Type} (p : α → Except JsError Bool) (q : α → Bool)
    (l : List α) (h : ∀ a ∈ l, p a = .ok (q a)) :
    filterE p l = .ok (l.filter q) := by
  induction l with
  | nil => rfl
  | cons x xs ih =>
    rw [filterE, h x (List.mem_cons_self x xs),
      ih (fun a ha => h a (List.mem_cons_of_mem x ha)), List.filter_cons]

theorem filterE_error_iff {α : Type} (p : α → Except JsError Bool) (l : List α) :
    filterE p l = .error .typeError ↔ ∃ a ∈ l, p a = .error .typeError := by
  induction l with
  | nil => simp [filterE]
  | cons x xs ih =>
    rw [filterE]
    cases hx : p x with
    | error e =>
      cases e
      simp [hx]
    | ok b =>
      cases hr : filterE p xs with
      | error e =>
        cases e
        rw [hr] at ih
        simp only [List.mem_cons]
        constructor
        · intro _
          obtain ⟨a, ha, hpa⟩ := ih.mp rfl
          exact ⟨a, Or.inr ha, hpa⟩
        · intro _
          trivial
      | ok rest =>
        rw [hr] at ih
        simp only [List.mem_cons]
        constructor
        · intro hcontra
          cases b <;> cases hcontra
        · rintro ⟨a, ha | ha, hpa⟩
          · rw [ha] at hpa
            rw [hx] at hpa
            cases hpa
          · exact absurd (ih.mpr ⟨a, ha, hpa⟩) (by simp)

theorem tasksNotDoneJS_none_error_iff (dayParse : String → Option Int)
    (today : Int) (courseTasks : List CourseTask) :
    tasksNotDoneJS dayParse today none courseTasks = .error .typeError ↔
      ∃ t ∈ courseTasks, isBeforeDay dayParse today t.studentEndDate = true := by
  have hpred : ∀ task : CourseTask,
      ((if isBeforeDay dayParse today task.studentEndDate then
          match checkTaskResultsJS none task.id with
          | .error e => .error e
          | .ok r => .ok !r.isSome
        else .ok false) : Except JsError Bool) = .error .typeError ↔
        isBeforeDay dayParse today task.studentEndDate = true := by
    intro task
    by_cases hb : isBeforeDay dayParse today task.studentEndDate
    · simp [hb, checkTaskResultsJS]
    · simp [hb]
  have hiff : tasksNotDoneJS dayParse today none courseTasks = .error .typeError ↔
      filterE (fun task =>
        if isBeforeDay dayParse today task.studentEndDate then
          match checkTaskResultsJS none task.id with
          | .error e => .error e
          | .ok r => .ok !r.isSome
        else .ok false) courseTasks = .error .typeError := by
    unfold tasksNotDoneJS
    cases hf : filterE (fun task =>
        if isBeforeDay dayParse today task.studentEndDate then
          match checkTaskResultsJS none task.id with
          | .error e => .error e
          | .ok r => .ok !r.isSome
        else .ok false) courseTasks with
    | error e => cases e; simp
    | ok picked => simp
  rw [hiff, filterE_error_iff]
  exact ⟨fun ⟨t, ht, hp⟩ => ⟨t, ht, (hpred t).mp hp⟩,
    fun ⟨t, ht, hp⟩ => ⟨t, ht, (hpred t).mpr hp⟩⟩

theorem tasksFutureJS_none_error_iff (dayParse : String → Option Int)
    (today : Int) (courseTasks : List CourseTask) :
    tasksFutureJS dayParse today none courseTasks = .error .typeError ↔
      ∃ t ∈ courseTasks, isAfterDay dayParse today t.studentEndDate = true := by
  have hpred : ∀ task : CourseTask,
      ((if isAfterDay dayParse today task.studentEndDate then
          match checkTaskResultsJS none task.id with
          | .error e => .error e
          | .ok r => .ok !r.isSome
        else .ok false) : Except JsError Bool) = .error .typeError ↔
        isAfterDay dayParse today task.studentEndDate = true := by
    intro task
    by_cases hb : isAfterDay dayParse today task.studentEndDate
    · simp [hb, checkTaskResultsJS]
    · simp [hb]
  have hiff : tasksFutureJS dayParse today none courseTasks = .error .typeError ↔
      filterE (fun task =>
        if isAfterDay dayParse today task.studentEndDate then
          match checkTaskResultsJS none task.id with
          | .error e => .error e
          | .ok r => .ok !r.isSome
        else .ok false) courseTasks = .error .typeError := by
    unfold tasksFutureJS
    cases hf : filterE (fun task =>
        if isAfterDay dayParse today task.studentEndDate then
          match checkTaskResultsJS none task.id with
          | .error e => .error e
          | .ok r => .ok !r.isSome
        else .ok false) courseTasks with
    | error e => cases e; simp
    | ok picked => simp
  rw [hiff, filterE_error_iff]
  exact ⟨fun ⟨t, ht, hp⟩ => ⟨t, ht, (hpred t).mp hp⟩,
    fun ⟨t, ht, hp⟩ => ⟨t, ht, (hpred t).mpr hp⟩⟩

theorem tasksCompletedJS_some (rs : List TaskResult)
    (tasksDetail : List StudentTasksDetail) (courseTasks : List CourseTask) :
    tasksCompletedJS (some rs) tasksDetail courseTasks =
      .ok (tasksCompleted rs tasksDetail courseTasks) := by
  unfold tasksCompletedJS tasksCompleted
  rw [filterE_ok (fun task =>
      match checkTaskResultsJS (some rs) task.id with
      | .error e => .error e
      | .ok r => .ok r.isSome)
    (fun task => (checkTaskResults rs task.id).isSome) courseTasks
    (fun a _ => rfl)]

theorem tasksNotDoneJS_some (dayParse : String → Option Int) (today : Int)
    (rs : List TaskResult) (courseTasks : List CourseTask) :
    tasksNotDoneJS dayParse today (some rs) courseTasks =
      .ok (tasksNotDone dayParse today rs courseTasks) := by
  unfold tasksNotDoneJS tasksNotDone
  rw [filterE_ok (fun task =>
      if isBeforeDay dayParse today task.studentEndDate then
        match checkTaskResultsJS (some rs) task.id with
        | .error e => .error e
        | .ok r => .ok !r.isSome
      else .ok false)
    (fun task =>
      isBeforeDay dayParse today task.studentEndDate &&
        !(checkTaskResults rs task.id).isSome) courseTasks ?_]
  intro a _
  by_cases hb : isBeforeDay dayParse today a.studentEndDate
  · simp [hb, checkTaskResultsJS]
  · simp [hb]

theorem tasksFutureJS_some (dayParse : String → Option Int) (today : Int)
    (rs : List TaskResult) (courseTasks : List CourseTask) :
    tasksFutureJS dayParse today (some rs) courseTasks =
      .ok (tasksFuture dayParse today rs courseTasks) := by
  unfold tasksFutureJS tasksFuture
  rw [filterE_ok (fun task =>
      if isAfterDay dayParse today task.studentEndDate then
        match checkTaskResultsJS (some rs) task.id with
        | .error e => .error e
        | .ok r => .ok !r.isSome
      else .ok false)
    (fun task =>
      isAfterDay dayParse today task.studentEndDate &&
        !(checkTaskResults rs task.id).isSome) courseTasks ?_]
  intro a _
  by_cases hb : isAfterDay dayParse today a.studentEndDate
  · simp [hb, checkTaskResultsJS]
  · simp [hb]

/-- C9, counterexample: with `results` absent (the initial empty summary)
and a non-empty task list whose only task is due after the current day, the
`notDone` bucket evaluates without any error — its `&&` short-circuits
before `results` is touched — so it is not true that evaluating any
classifier bucket over a non-empty task list reaches the error branch. -/
theorem notDone_bucket_total_without_results :
    tasksNotDoneJS isoDayValue 20240101 none [c1Task] = .ok [] ∧
    ([c1Task] : List CourseTask) ≠ [] := by
  exact ⟨rfl, by decide⟩

/-- C9, amended: with `results` absent the `completed` bucket reaches the
error branch for every non-empty task list (its filter always calls
`checkTaskResults`), while `notDone` and `future` reach it exactly when some
task passes their strict date comparison; all three buckets are total on the
empty task list even with `results` absent, and with `results` an array they
are total on every task list and agree with the pure classifier. -/
theorem checkTaskResults_requires_results (dayParse : String → Option Int)
    (today : Int) (tasksDetail : List StudentTasksDetail)
    (courseTasks : List CourseTask) :
    (courseTasks ≠ [] →
      tasksCompletedJS none tasksDetail courseTasks = .error .typeError) ∧
    (tasksNotDoneJS dayParse today none courseTasks = .error .typeError ↔
      ∃ t ∈ courseTasks, isBeforeDay dayParse today t.studentEndDate = true) ∧
    (tasksFutureJS dayParse today none courseTasks = .error .typeError ↔
      ∃ t ∈ courseTasks, isAfterDay dayParse today t.studentEndDate = true) ∧
    (∀ rs, tasksCompletedJS (some rs) tasksDetail courseTasks =
        .ok (tasksCompleted rs tasksDetail courseTasks) ∧
      tasksNotDoneJS dayParse today (some rs) courseTasks =
        .ok (tasksNotDone dayParse today rs courseTasks) ∧
      tasksFutureJS dayParse today (some rs) courseTasks =
        .ok (tasksFuture dayParse today rs courseTasks)) ∧
    (tasksCompletedJS none tasksDetail [] = .ok [] ∧
      tasksNotDoneJS dayParse today none [] = .ok [] ∧
      tasksFutureJS dayParse today none [] = .ok []) := by
  refine ⟨?_, tasksNotDoneJS_none_error_iff dayParse today courseTasks,
    tasksFutureJS_none_error_iff dayParse today courseTasks,
    fun rs => ⟨tasksCompletedJS_some rs tasksDetail courseTasks,
      tasksNotDoneJS_some dayParse today rs courseTasks,
      tasksFutureJS_some dayParse today rs courseTasks⟩,
    rfl, rfl, rfl⟩
  intro hne
  cases courseTasks with
  | nil => exact absurd rfl hne
  | cons t ts => rfl

/-- Witness for the amended C9 at a concrete one-task list (and, through the
last conjunct, the empty task list). -/
theorem checkTaskResults_requires_results_witness :
    (([c1Task] : List CourseTask) ≠ [] →
      tasksCompletedJS none [] [c1Task] = .error .typeError) ∧
    (tasksNotDoneJS isoDayValue 20240306 none [c1Task] = .error .typeError ↔
      ∃ t ∈ [c1Task], isBeforeDay isoDayValue 20240306 t.studentEndDate = true) ∧
    (tasksFutureJS isoDayValue 20240306 none [c1Task] = .error .typeError ↔
      ∃ t ∈ [c1Task], isAfterDay isoDayValue 20240306 t.studentEndDate = true) ∧
    (∀ rs, tasksCompletedJS (some rs) [] [c1Task] =
        .ok (tasksCompleted rs [] [c1Task]) ∧
      tasksNotDoneJS isoDayValue 20240306 (some rs) [c1Task] =
        .ok (tasksNotDone isoDayValue 20240306 rs [c1Task]) ∧
      tasksFutureJS isoDayValue 20240306 (some rs) [c1Task] =
        .ok (tasksFuture isoDayValue 20240306 rs [c1Task])) ∧
    (tasksCompletedJS none [] [] = .ok [] ∧
      tasksNotDoneJS isoDayValue 20240306 none [] = .ok [] ∧
      tasksFutureJS isoDayValue 20240306 none [] = .ok []) :=
  checkTaskResults_requires_results isoDayValue 20240306 [] [c1Task]

/-- The student's mentor reference inside the summary; only its presence
matters to the dashboard. -/
structure Mentor where
  githubId : String
deriving Repr, DecidableEq

/-- `StudentSummary` as the page reads it.  The initial state is the empty
object `{} as StudentSummary`, so every field can be `undefined`: each is an
`Option`. -/
structure StudentSummary where
  isActive : Option Bool
  totalScore : Option Int
  rank : Option Int
  repository : Option String
  mentor : Option Mentor
  results : Option (List TaskResult)
deriving Repr, DecidableEq

/-- The `{} as StudentSummary` initial value: every field `undefined`. -/
def emptyStudentSummary : StudentSummary :=
  { isActive := none, totalScore := none, rank := none, repository := none,
    mentor := none, results := none }

/-- One entry of `profileInfo.studentStats`: a course id with its per-task
detail list. -/
structure StudentStats where
  courseId : Int
  tasks : List StudentTasksDetail
deriving Repr, DecidableEq

/-- The profile statistics response; `studentStats` may be absent (the
source guards it with `?.`). -/
structure ProfileInfo where
  studentStats : Option (List StudentStats)
deriving Repr, DecidableEq

/-- Translation of
`statisticsCourses.studentStats?.find(course => course.courseId === props.course.id)?.tasks ?? []`. -/
def tasksDetailCurrentCourse (statisticsCourses : ProfileInfo) (courseId : Int) :
    List StudentTasksDetail :=
  match statisticsCourses.studentStats with
  | none => []
  | some stats =>
    match stats.find? (fun course => course.courseId == courseId) with
    | none => []
    | some course => course.tasks

/-- The view state the fetch callback mutates.  `countEvents` is driven by
the separately modelled preference (`showCountEventsOnStudentsDashboard`)
and is untouched by the fetch, so it is not part of this record;
`errorMessages` counts `message.error` notifications. -/
structure DashboardState where
  studentSummary : StudentSummary
  courseTasks : List CourseTask
  tasksDetail : List StudentTasksDetail
  nextEvents : List CourseEvent
  loading : Bool
  errorMessages : Nat
deriving Repr, DecidableEq

/-- The `useState` initial values of the fetched view state. -/
def initialDashboardState : DashboardState :=
  { studentSummary := emptyStudentSummary, courseTasks := [], tasksDetail := [],
    nextEvents := [], loading := false, errorMessages := 0 }

/-- One state-affecting step the fetch callback performs, in program order. -/
inductive Action where
  | setLoading (b : Bool)
  | setNextEvents (events : List CourseEvent)
  | setStudentSummary (summary : StudentSummary)
  | setCourseTasks (tasks : List CourseTask)
  | setTasksDetail (details : List StudentTasksDetail)
  | notifyError
deriving Repr, DecidableEq

/-- Model of `Promise.all` over the four dashboard requests: all succeed or
the whole batch rejects. -/
def promiseAll4 {α β γ δ : Type} (a : Except Unit α) (b : Except Unit β)
    (c : Except Unit γ) (d : Except Unit δ) : Except Unit (α × β × γ × δ) :=
  match a, b, c, d with
  | .ok va, .ok vb, .ok vc, .ok vd => .ok (va, vb, vc, vd)
  | .error e, _, _, _ => .error e
  | _, .error e, _, _ => .error e
  | _, _, .error e, _ => .error e
  | _, _, _, .error e => .error e

/-- The effect trace of the `useAsync` callback's try/catch/finally:
`setLoading(true)`, then on batch success the four state writes (the next
events computed from fetched events and tasks), on batch rejection one
generic error notification, and in all cases `setLoading(false)` last. -/
def fetchActions (courseId : Int) (parse : String → Option Int)
    (startOfToday : Int)
    (batch : Except Unit (StudentSummary × List CourseTask × ProfileInfo × List CourseEvent)) :
    List Action :=
  Action.setLoading true ::
    (match batch with
      | .ok (studentSummary, courseTasks, statisticsCourses, courseEvents) =>
        [Action.setNextEvents (nextEvents parse startOfToday courseEvents courseTasks),
          Action.setStudentSummary studentSummary,
          Action.setCourseTasks courseTasks,
          Action.setTasksDetail (tasksDetailCurrentCourse statisticsCourses courseId)]
      | .error _ => [Action.notifyError]) ++
    [Action.setLoading false]

/-- How one action updates the view state. -/
def applyAction (state : DashboardState) : Action → DashboardState
  | .setLoading b => { state with loading := b }
  | .setNextEvents events => { state with nextEvents := events }
  | .setStudentSummary summary => { state with studentSummary := summary }
  | .setCourseTasks tasks => { state with courseTasks := tasks }
  | .setTasksDetail details => { state with tasksDetail := details }
  | .notifyError => { state with errorMessages := state.errorMessages + 1 }

/-- Running a trace of actions over a state, in order. -/
def applyActions (actions : List Action) (state : DashboardState) : DashboardState :=
  actions.foldl applyAction state

/-- C7: for every outcome of the four requests the trace starts with
`setLoading true`, ends with `setLoading false` and leaves the loading flag
false; and if any request rejects, the final state is exactly the initial
state plus one error notification — the summary and every other fetched
field keep their initial values, with no partial application. -/
theorem fetch_failure_leaves_state (courseId : Int)
    (parse : String → Option Int) (startOfToday : Int)
    (a : Except Unit StudentSummary) (b : Except Unit (List CourseTask))
    (c : Except Unit ProfileInfo) (d : Except Unit (List CourseEvent)) :
    ((fetchActions courseId parse startOfToday (promiseAll4 a b c d)).head? =
        some (Action.setLoading true) ∧
      (fetchActions courseId parse startOfToday (promiseAll4 a b c d)).getLast? =
        some (Action.setLoading false) ∧
      (applyActions (fetchActions courseId parse startOfToday (promiseAll4 a b c d))
          initialDashboardState).loading = false) ∧
    ((a = .error () ∨ b = .error () ∨ c = .error () ∨ d = .error ()) →
      applyActions (fetchActions courseId parse startOfToday (promiseAll4 a b c d))
          initialDashboardState =
        { initialDashboardState with errorMessages := 1 }) := by
  rcases a with ⟨⟩ | sa <;> rcases b with ⟨⟩ | sb <;>
    rcases c with ⟨⟩ | sc <;> rcases d with ⟨⟩ | sd <;>
    refine ⟨⟨rfl, rfl, rfl⟩, ?_⟩ <;>
    first
      | (intro _; rfl)
      | (rintro (h | h | h | h) <;> cases h)

/-- Witness for C7's failure branch at a concrete all-rejected batch. -/
theorem fetch_failure_leaves_state_witness :
    applyActions
        (fetchActions 7 isoDayValue 20240101
          (promiseAll4 (Except.error () : Except Unit StudentSummary)
            (Except.error () : Except Unit (List CourseTask))
            (Except.error () : Except Unit ProfileInfo)
            (Except.error () : Except Unit (List CourseEvent))))
        initialDashboardState =
      { initialDashboardState with errorMessages := 1 } :=
  (fetch_failure_leaves_state 7 isoDayValue 20240101
    (.error ()) (.error ()) (.error ()) (.error ())).2 (Or.inl rfl)

/-- Model of JS `Number(...)` applied to a string, restricted to the decimal
integer numerals this preference holds: the empty string coerces to `0`, a
signed decimal numeral to its value, anything else to `NaN` (`none`). -/
def jsNumberOfString (s : String) : Option Int :=
  if s = "" then some 0 else s.toInt?

/-- Translation of `showCountEventsOnStudentsDashboard()`:
`Number(localStorage.getItem(key) ? localStorage.getItem(key) : 1)`.  The
stored value is `none` when the key is absent (`getItem` returns `null`);
`null` and the empty string are falsy, so the ternary then yields the number
`1` and `Number(1)` is `1`. -/
def showCountEventsOnStudentsDashboard (stored : Option String) : Option Int :=
  match stored with
  | none => some 1
  | some s => if s = "" then some 1 else jsNumberOfString s

/-- C8, counterexample: storing the empty string gives a stored string value
for which the function returns `1`, not `Number("") = 0` — the stored string
is not always returned parsed as a number. -/
theorem stored_empty_string_not_parsed :
    showCountEventsOnStudentsDashboard (some "") = some 1 ∧
    jsNumberOfString "" = some 0 ∧
    showCountEventsOnStudentsDashboard (some "") ≠ jsNumberOfString "" := by
  decide

/-- C8, amended: when the key is absent the function returns `1`; when a
non-empty string is stored it returns that string coerced by `Number`; a
stored empty string (falsy in JS) also yields `1`. -/
theorem showCountEvents_default_and_parse (s : String) (h : s ≠ "") :
    showCountEventsOnStudentsDashboard none = some 1 ∧
    showCountEventsOnStudentsDashboard (some "") = some 1 ∧
    showCountEventsOnStudentsDashboard (some s) = jsNumberOfString s := by
  refine ⟨rfl, rfl, ?_⟩
  show (if s = "" then some 1 else jsNumberOfString s) = jsNumberOfString s
  rw [if_neg h]

/-- Witness for the amended C8 at the stored string `"5"`. -/
theorem showCountEvents_default_and_parse_witness :
    ("5" : String) ≠ "" ∧
    (showCountEventsOnStudentsDashboard none = some 1 ∧
    showCountEventsOnStudentsDashboard (some "") = some 1 ∧
    showCountEventsOnStudentsDashboard (some "5") = jsNumberOfString "5") :=
  ⟨by decide, showCountEvents_default_and_parse "5" (by decide)⟩

end StudentDashboard
